import Mathlib

/-!
Shallow embedding of `src/project1.py`, a usability-testing data-collection
tool. The program persists each stage's submission through `save_to_csv`
(pandas `DataFrame.to_csv` on a single-row frame) and reads datasets back
through `load_from_csv` (pandas `read_csv`); a per-session task timer lives
in `st.session_state` under the keys `start_time` and `task_duration`; the
report tab computes the means of the `satisfaction` and `difficulty` columns
of the exit dataset when it is non-empty.

Modelling choices, each tied to the source:
* A CSV file is `Option (List (List String))`: `none` when the file does not
  exist (`os.path.isfile` false), otherwise the list of physical rows, each a
  list of cell strings.  pandas' quoting makes the cell-string level exact:
  `to_csv` followed by `read_csv` recovers cell strings (commas, newlines)
  unchanged, so we do not model the quoting layer itself.
* Cell values are `Value`: Python `bool`, `int`, `str`, floats, signed
  infinities, and pandas' missing marker `NaN`.  `to_csv` prints
  `True`/`False` for bools, decimal digits for ints, the string itself for
  strings, `repr` for floats, and the empty cell for `NaN`.
* `read_csv` inference is modelled per COLUMN, as pandas performs it: a
  column whose cells are all in-64-bit-range integer literals becomes an
  integer column; a column whose cells are all numeric literals (integer,
  decimal, scientific, infinity) or NA sentinels becomes a float column
  (so integers mixed with an NA load as floats); a column of boolean
  literals and NA sentinels becomes booleans; any other column stays
  strings, with NA-sentinel cells becoming `NaN` in every case.  The
  default NA sentinel list and the leading/trailing-whitespace tolerance of
  the numeric converters are reproduced.
* A float value is identified with the exact rational value of its shortest
  `repr` decimal (Python's `repr` of a float is a decimal literal that
  reparses to the same float, and `to_csv`/`read_csv` move floats through
  exactly that literal); rationals that are no float's `repr` print in a
  form the reader never reparses as a float, so no statement touches them.
* Clock readings (`time.time()`) and durations are modelled as integers;
  none of the verified properties depends on fractional seconds.
* The timer is the pair of optional session-state keys the source uses.
-/

namespace UsabilityTool

/-- A cell value as it appears in a record dict or a loaded DataFrame:
Python `bool`, `int`, `str`, a float (by the rational value of its `repr`
literal), a signed infinity, or pandas' missing marker `NaN`. -/
inductive Value where
  | VBool : Bool → Value
  | VInt : Int → Value
  | VFloat : ℚ → Value
  | VInf : Bool → Value
  | VStr : String → Value
  | VNaN : Value
deriving DecidableEq

/-- Numeric value of a list of decimal digit characters. -/
def digitsVal (cs : List Char) : Nat :=
  cs.foldl (fun acc c => acc * 10 + (c.toNat - '0'.toNat)) 0

/-- Strip leading and trailing whitespace, as pandas' numeric converters
do before parsing a field. -/
def trimChars (cs : List Char) : List Char :=
  ((cs.dropWhile Char.isWhitespace).reverse.dropWhile Char.isWhitespace).reverse

/-- Split a leading `+`/`-` sign off a token. -/
def splitSign : List Char → Bool × List Char
  | '-' :: cs => (true, cs)
  | '+' :: cs => (false, cs)
  | cs => (false, cs)

/-- An optionally signed run of one or more decimal digits. -/
def isIntTokenChars (cs : List Char) : Bool :=
  !(splitSign cs).2.isEmpty && (splitSign cs).2.all Char.isDigit

/-- Integer value of an optionally signed digit run. -/
def intTokenVal (cs : List Char) : Int :=
  if (splitSign cs).1 then -(digitsVal (splitSign cs).2 : Int)
  else (digitsVal (splitSign cs).2 : Int)

/-- Smallest value of pandas' `int64` column type. -/
def int64Min : Int := -(2 ^ 63)

/-- Largest value of pandas' `int64` column type. -/
def int64Max : Int := 2 ^ 63 - 1

/-- A cell the reader's integer converter accepts: an optionally signed
decimal literal (surrounding whitespace tolerated) within `int64` range —
out-of-range literals overflow `int64` and fall through to the float
converter, losing exactness. -/
def isIntCell (s : String) : Bool :=
  isIntTokenChars (trimChars s.toList) &&
    decide (int64Min ≤ intTokenVal (trimChars s.toList)) &&
    decide (intTokenVal (trimChars s.toList) ≤ int64Max)

/-- Integer value of an integer cell. -/
def intCellVal (s : String) : Int := intTokenVal (trimChars s.toList)

/-- Apply a scientific-notation exponent suffix (after `e`/`E`) to a
mantissa value. -/
def applyExp (base : ℚ) (cs : List Char) : Option ℚ :=
  if !(splitSign cs).2.isEmpty && (splitSign cs).2.all Char.isDigit then
    some (if (splitSign cs).1 then base / 10 ^ digitsVal (splitSign cs).2
          else base * 10 ^ digitsVal (splitSign cs).2)
  else none

/-- Exact rational value of an unsigned float literal: `digits`,
`digits.digits`, `.digits`, `digits.`, each with an optional `e`/`E`
exponent; `none` when the token is not of this shape. -/
def mantissaExp (cs : List Char) : Option ℚ :=
  let ip := cs.takeWhile Char.isDigit
  match cs.dropWhile Char.isDigit with
  | [] => if ip.isEmpty then none else some (digitsVal ip : ℚ)
  | '.' :: rest2 =>
      let fp := rest2.takeWhile Char.isDigit
      if ip.isEmpty && fp.isEmpty then none
      else
        let base : ℚ := (digitsVal ip : ℚ) + (digitsVal fp : ℚ) / 10 ^ fp.length
        match rest2.dropWhile Char.isDigit with
        | [] => some base
        | c :: rest4 => if c = 'e' || c = 'E' then applyExp base rest4 else none
  | c :: rest2 =>
      if (c = 'e' || c = 'E') && !ip.isEmpty then applyExp (digitsVal ip : ℚ) rest2
      else none

/-- Exact rational value of a signed float literal cell, whitespace
tolerated; `none` when the cell is not a finite float literal. -/
def floatCellQ (s : String) : Option ℚ :=
  match mantissaExp (splitSign (trimChars s.toList)).2 with
  | some q => some (if (splitSign (trimChars s.toList)).1 then -q else q)
  | none => none

/-- An optionally signed `inf`/`infinity` cell (case-insensitive), which
the float converter reads as an infinity. -/
def isInfCell (s : String) : Bool :=
  ((splitSign (trimChars s.toList)).2.map Char.toLower == "inf".toList) ||
  ((splitSign (trimChars s.toList)).2.map Char.toLower == "infinity".toList)

/-- A cell the reader's float converter accepts. -/
def isFloatCell (s : String) : Bool := (floatCellQ s).isSome || isInfCell s

/-- The float value of a float cell. -/
def floatCellVal (s : String) : Value :=
  if isInfCell s then .VInf (splitSign (trimChars s.toList)).1
  else
    match floatCellQ s with
    | some q => .VFloat q
    | none => .VNaN

/-- pandas' default `na_values` sentinel list: cells equal to one of these
strings are read as missing (`NaN`) in every column. -/
def naSentinels : List String :=
  ["", "#N/A", "#N/A N/A", "#NA", "-1.#IND", "-1.#QNAN", "-NaN", "-nan",
   "1.#IND", "1.#QNAN", "<NA>", "N/A", "NA", "NULL", "NaN", "None",
   "n/a", "nan", "null"]

/-- Is the cell one of the NA sentinels (matched verbatim). -/
def isNACell (s : String) : Bool := naSentinels.contains s

/-- The boolean literals the reader's bool converter accepts. -/
def isBoolCell (s : String) : Bool :=
  ["True", "TRUE", "true", "False", "FALSE", "false"].contains s

/-- The truth value of a boolean literal cell. -/
def boolCellVal (s : String) : Bool := ["True", "TRUE", "true"].contains s

/-- Smallest `k` with `d` dividing `10 ^ k`, when `d` divides a power of
ten (a decimal denominator); `none` otherwise. -/
def decExp (d : Nat) : Option Nat :=
  (List.range (Nat.log 2 d + 2)).find? fun k => 10 ^ k % d == 0

/-- Left-pad a digit string with zeros to the given length. -/
def padZeros (s : String) (n : Nat) : String :=
  String.mk (List.replicate (n - s.length) '0') ++ s

/-- The decimal form Python prints for the float identified with `q`: the
digits of `q` with an explicit decimal point (`3.5`, `3.0`, `-0.25`). For a
`q` with a non-decimal denominator — no float's `repr` — the fallback
`num/den` form is printed, which the reader never reparses as a float. -/
def ratRepr (q : ℚ) : String :=
  match decExp q.den with
  | none => toString q
  | some k =>
      let m := q.num.natAbs * 10 ^ k / q.den
      let sign := if q.num < 0 then "-" else ""
      if k = 0 then sign ++ toString m ++ ".0"
      else
        let s := padZeros (toString m) (k + 1)
        sign ++ String.mk (s.toList.take (s.length - k)) ++ "." ++
          String.mk (s.toList.drop (s.length - k))

/-- How pandas `to_csv` prints one cell: `True`/`False` for Python bools,
decimal digits for ints, the raw string for strings, `repr` for floats and
infinities, empty for `NaN`. -/
def serializeValue : Value → String
  | .VBool true => "True"
  | .VBool false => "False"
  | .VInt n => toString n
  | .VFloat q => ratRepr q
  | .VInf true => "-inf"
  | .VInf false => "inf"
  | .VStr s => s
  | .VNaN => ""

/-- A record: the ordered field-name/value dict handed to `save_to_csv`. -/
abbrev Record := List (String × Value)

/-- One physical CSV row: the list of its cell strings. -/
abbrev Row := List String

/-- A dataset's backing file: `none` when it does not exist, otherwise the
list of its physical rows (header first, then data rows). -/
abbrev FileState := Option (List Row)

/-- The header row a record produces: its field names in order. -/
def headerOf (r : Record) : Row := r.map Prod.fst

/-- The data row a record produces: its values serialized in order. -/
def rowOf (r : Record) : Row := r.map (fun p => serializeValue p.snd)

/-- `save_to_csv(data_dict, csv_file)` from `src/project1.py` lines 19-27:
if the file does not exist, write header plus the one data row; otherwise
append the data row only (`mode='a', header=False`), with no schema check. -/
def save_to_csv (r : Record) (file : FileState) : FileState :=
  match file with
  | none => some [headerOf r, rowOf r]
  | some rows => some (rows ++ [rowOf r])

/-- pandas `read_csv` column inference, in the converter order the parser
tries: all cells in-range integer literals → integer column; all cells
numeric literals or NA → float column; all cells boolean literals or NA →
boolean column; otherwise the cells stay strings.  NA-sentinel cells become
`NaN` in every case. -/
def inferColumn (cells : List String) : List Value :=
  if cells.all isIntCell then
    cells.map fun s => .VInt (intCellVal s)
  else if cells.all fun s => isNACell s || isFloatCell s then
    cells.map fun s => if isNACell s then .VNaN else floatCellVal s
  else if cells.all fun s => isNACell s || isBoolCell s then
    cells.map fun s => if isNACell s then .VNaN else .VBool (boolCellVal s)
  else
    cells.map fun s => if isNACell s then .VNaN else .VStr s

/-- The columns of a physical table under a header: the `j`-th column is
the `j`-th cell of every data row (missing trailing cells read as empty,
hence `NaN`, as pandas fills short rows), converted by column inference. -/
def columnsOf (h : Row) (rows : List Row) : List (List Value) :=
  (List.range h.length).map fun j => inferColumn (rows.map fun row => row.getD j "")

/-- pandas row decoding: record `i` pairs each header name with entry `i`
of that name's inferred column. -/
def decodeRows (h : Row) (rows : List Row) : List Record :=
  (List.range rows.length).map fun i =>
    (h.zip (columnsOf h rows)).map fun p => (p.1, p.2.getD i Value.VNaN)

/-- `load_from_csv(csv_file)` from `src/project1.py` lines 31-35: an empty
DataFrame when the file does not exist, otherwise the data rows decoded
against the header row by column-wise inference. -/
def load_from_csv (file : FileState) : List Record :=
  match file with
  | none => []
  | some [] => []
  | some (h :: rows) => decodeRows h rows

/-- A sequence of `save_to_csv` calls applied in order. -/
def appendAll (records : List Record) (file : FileState) : FileState :=
  records.foldl (fun f r => save_to_csv r f) file

/-- A backing file reachable by the store's own operations: either absent or
holding a header row (possibly with data rows). -/
def WFFile (file : FileState) : Prop :=
  file = none ∨ ∃ h t, file = some (h :: t)

/-- The timer state kept in `st.session_state`: the optional keys
`start_time` (set while a task is being timed) and `task_duration` (the last
recorded measurement).  Clock readings are modelled as integers. -/
structure TimerState where
  start_time : Option Int
  task_duration : Option Int
deriving DecidableEq

/-- "Start Task Timer" (line 107-109): store the current clock reading under
`start_time`, overwriting any previous one. -/
def startTimer (now : Int) (s : TimerState) : TimerState :=
  { s with start_time := some now }

/-- "Stop Task Timer" (lines 111-114): guarded by `start_time` being
present; records `now - start_time` under `task_duration`.  The source does
not remove `start_time`. -/
def stopTimer (now : Int) (s : TimerState) : TimerState :=
  match s.start_time with
  | some t => { s with task_duration := some (now - t) }
  | none => s

/-- The `duration_seconds` cell of a task record (line 126):
`duration_val if duration_val else ""` — Python truthiness, so both `None`
and `0` produce the empty-string placeholder. -/
def durationCell (d : Option Int) : Value :=
  match d with
  | some x => if x = 0 then .VStr "" else .VInt x
  | none => .VStr ""

/-- The record dict built by "Save Task Results" (lines 122-128). -/
def taskRecord (ts task_name success notes : String) (s : TimerState) : Record :=
  [("timestamp", .VStr ts),
   ("task_name", .VStr task_name),
   ("success", .VStr success),
   ("duration_seconds", durationCell s.task_duration),
   ("notes", .VStr notes)]

/-- "Save Task Results" (lines 119-134): persist the task record, then pop
both `start_time` and `task_duration` from the session state. -/
def saveTaskResults (ts task_name success notes : String) (s : TimerState)
    (file : FileState) : TimerState × FileState :=
  (⟨none, none⟩, save_to_csv (taskRecord ts task_name success notes s) file)

/-- The record dict built by the consent handler (lines 72-75). -/
def consentRecord (ts : String) (cg : Bool) : Record :=
  [("timestamp", .VStr ts), ("consent_given", .VBool cg)]

/-- "Submit Consent" (lines 68-76): when the checkbox is not checked, show a
warning (second component `true`) and persist nothing; otherwise append the
consent record. -/
def submitConsent (consent_given : Bool) (ts : String) (file : FileState) :
    FileState × Bool :=
  if consent_given then (save_to_csv (consentRecord ts consent_given) file, false)
  else (file, true)

/-- The record dict built by the exit-questionnaire handler (lines 147-152);
`satisfaction` and `difficulty` come from 1-5 sliders. -/
def exitRecord (ts : String) (sat diff : Int) (fb : String) : Record :=
  [("timestamp", .VStr ts),
   ("satisfaction", .VInt sat),
   ("difficulty", .VInt diff),
   ("open_feedback", .VStr fb)]

/-- "Submit Exit Questionnaire" (lines 146-152): append the exit record. -/
def submitExit (ts : String) (sat diff : Int) (fb : String) (file : FileState) :
    FileState :=
  save_to_csv (exitRecord ts sat diff fb) file

/-- One exit submission's inputs: timestamp, satisfaction, difficulty,
feedback. -/
abbrev ExitEntry := String × Int × Int × String

/-- A sequence of exit submissions applied to a fresh dataset. -/
def exitFile (entries : List ExitEntry) : FileState :=
  entries.foldl (fun f e => submitExit e.1 e.2.1 e.2.2.1 e.2.2.2 f) none

/-- First value stored under a field name in a record (`NaN` if absent),
matching DataFrame column access on a loaded record. -/
def lookupValue (r : Record) (field : String) : Value :=
  match r.find? (fun p => p.fst = field) with
  | some p => p.snd
  | none => .VNaN

/-- Numeric reading of a cell, as pandas `.mean()` consumes a column. -/
def valueToRat : Value → ℚ
  | .VInt n => (n : ℚ)
  | .VFloat q => q
  | .VBool true => 1
  | .VBool false => 0
  | _ => 0

/-- Arithmetic mean of a list of rationals. -/
def listMean (l : List ℚ) : ℚ := l.sum / l.length

/-- The report tab's exit aggregates (lines 188-193): skipped entirely
(`none`) when the loaded exit DataFrame is empty, otherwise the means of the
`satisfaction` and `difficulty` columns. -/
def reportExitAverages (file : FileState) : Option (ℚ × ℚ) :=
  let df := load_from_csv file
  if df.isEmpty then none
  else
    some (listMean (df.map (fun r => valueToRat (lookupValue r "satisfaction"))),
          listMean (df.map (fun r => valueToRat (lookupValue r "difficulty"))))

/-- A column of values whose printed cells the reader's column inference
maps back to exactly the original values. -/
def columnRoundtrips (vs : List Value) : Prop :=
  inferColumn (vs.map serializeValue) = vs

instance (vs : List Value) : Decidable (columnRoundtrips vs) := by
  unfold columnRoundtrips; infer_instance

/-! ### Helper lemmas about the store -/

lemma appendAll_cons (r : Record) (rs : List Record) (file : FileState) :
    appendAll (r :: rs) file = appendAll rs (save_to_csv r file) := rfl

lemma appendAll_some (rs : List Record) (rows : List Row) :
    appendAll rs (some rows) = some (rows ++ rs.map rowOf) := by
  induction rs generalizing rows with
  | nil => simp [appendAll]
  | cons r rs ih =>
      rw [appendAll_cons]
      show appendAll rs (some (rows ++ [rowOf r])) = _
      rw [ih]
      simp

lemma appendAll_none (r : Record) (rs : List Record) :
    appendAll (r :: rs) none = some (headerOf r :: rowOf r :: rs.map rowOf) := by
  rw [appendAll_cons]
  show appendAll rs (some [headerOf r, rowOf r]) = _
  rw [appendAll_some]
  rfl

lemma load_appendAll (records : List Record) (H : Row) (hne : records ≠ [])
    (hH : ∀ r ∈ records, headerOf r = H) :
    load_from_csv (appendAll records none) = decodeRows H (records.map rowOf) := by
  obtain ⟨r0, rs, rfl⟩ := List.exists_cons_of_ne_nil hne
  rw [appendAll_none, hH r0 (by simp)]
  rfl

lemma decodeRows_length (h : Row) (rows : List Row) :
    (decodeRows h rows).length = rows.length := by
  simp [decodeRows]

lemma load_length_save (r : Record) (file : FileState) (hwf : WFFile file) :
    (load_from_csv (save_to_csv r file)).length = (load_from_csv file).length + 1 := by
  rcases hwf with h | ⟨hd, tl, h⟩ <;> subst h <;>
    simp [save_to_csv, load_from_csv, decodeRows_length]

/-- Decoding the physical rows written for a list of records recovers the
records whenever all records share the header's field names and every
field's column of values round-trips through print-and-infer. -/
lemma decodeRows_rowOf (records : List Record) (H : Row)
    (hH : ∀ r ∈ records, headerOf r = H)
    (hcol : ∀ j, j < H.length →
      columnRoundtrips (records.map fun r => (r.map Prod.snd).getD j Value.VNaN)) :
    decodeRows H (records.map rowOf) = records := by
  have hlen : ∀ r ∈ records, r.length = H.length := by
    intro r hr
    have h := congrArg List.length (hH r hr)
    simpa [headerOf] using h
  have hcols : ∀ j, j < H.length →
      inferColumn ((records.map rowOf).map fun row => row.getD j "")
        = records.map fun r => (r.map Prod.snd).getD j Value.VNaN := by
    intro j hj
    have hcells : (records.map rowOf).map (fun row => row.getD j "")
        = (records.map fun r => (r.map Prod.snd).getD j Value.VNaN).map serializeValue := by
      rw [List.map_map, List.map_map]
      apply List.map_congr_left
      intro r hr
      have hjr : j < r.length := by rw [hlen r hr]; exact hj
      show (rowOf r).getD j "" = serializeValue ((r.map Prod.snd).getD j Value.VNaN)
      rw [List.getD_eq_getElem _ _ (by simpa [rowOf] using hjr),
          List.getD_eq_getElem _ _ (by simpa using hjr)]
      simp [rowOf]
    rw [hcells]
    have h := hcol j hj
    unfold columnRoundtrips at h
    exact h
  apply List.ext_getElem
  · simp [decodeRows]
  · intro i hi1 hi2
    have hi2' : i < records.length := by simpa using hi2
    simp only [decodeRows, List.getElem_map, List.getElem_range]
    have hmem : records[i] ∈ records := List.getElem_mem hi2'
    apply List.ext_getElem
    · simp [columnsOf, hlen _ hmem]
    · intro j hj1 hj2
      have hjH : j < H.length := by
        rw [← hlen _ hmem]
        simpa using hj2
      simp only [List.getElem_map, List.getElem_zip]
      have hjc : j < (columnsOf H (records.map rowOf)).length := by
        simpa [columnsOf] using hjH
      have hji : j < (records[i]).length := by
        rw [hlen _ hmem]
        exact hjH
      have hjm : j < ((records[i]).map Prod.fst).length := by
        rw [List.length_map]
        exact hji
      have hcolj : (columnsOf H (records.map rowOf))[j]
          = records.map fun r => (r.map Prod.snd).getD j Value.VNaN := by
        simp only [columnsOf, List.getElem_map, List.getElem_range]
        exact hcols j hjH
      rw [hcolj]
      rw [List.getD_eq_getElem _ _ (by simpa using hi2'), List.getElem_map]
      rw [List.getD_eq_getElem _ _ (by simpa using hj2), List.getElem_map]
      have hfst : (records[i][j]).fst = H[j] := by
        have hHr := hH _ hmem
        have h1 : ((records[i]).map Prod.fst)[j] = H[j] := by
          simp only [show (records[i]).map Prod.fst = H from hHr]
        rw [List.getElem_map] at h1
        exact h1
      rw [Prod.ext_iff]
      exact ⟨hfst.symm, rfl⟩

/-! ### Claim theorems -/

/-- C2: `save_to_csv` on a missing file creates it with the record's field
names as header row followed by its value row; on an existing file it
appends only the value row, for every record and every existing content —
in particular with no check that the record's fields match the header. -/
theorem save_creates_or_appends (r : Record) (rows : List Row) :
    save_to_csv r none = some [headerOf r, rowOf r] ∧
    save_to_csv r (some rows) = some (rows ++ [rowOf r]) :=
  ⟨rfl, rfl⟩

/-- C7: loading a dataset whose backing file does not exist returns the
empty record list (and, being a total function, raises nothing). -/
theorem load_missing_file_empty : load_from_csv none = [] := rfl

/-- C3 counterexample: stopping a running timer does NOT clear
`start_time` — after `stop` at clock 5 on a timer started at clock 2, the
session still holds `start_time = 2`, contradicting the claim that the
timer transitions to Idle (`start_time` no longer set). -/
theorem stop_keeps_start_time :
    (stopTimer 5 { start_time := some 2, task_duration := none }).start_time = some 2 ∧
    (stopTimer 5 { start_time := some 2, task_duration := none }).start_time ≠ none := by
  decide

/-- C3 (amended): `stop` while running computes `now - start_time` and
stores it as the recorded duration but leaves `start_time` set (the timer
stays Running); `stop` while idle changes no state and produces no
measurement. -/
theorem stop_behavior (now t : Int) (s : TimerState) :
    (s.start_time = some t →
      stopTimer now s = { start_time := some t, task_duration := some (now - t) }) ∧
    (s.start_time = none → stopTimer now s = s) := by
  obtain ⟨st, td⟩ := s
  constructor
  · intro h
    simp_all [stopTimer]
  · intro h
    simp_all [stopTimer]

/-- C3 witness: the amended behavior at a concrete running state. -/
theorem stop_behavior_witness :
    stopTimer 5 { start_time := some 2, task_duration := none }
      = { start_time := some 2, task_duration := some (5 - 2) } :=
  (stop_behavior 5 2 { start_time := some 2, task_duration := none }).1 rfl

/-- C8 counterexample: the duration is `time.time() - start_time` on the
wall clock; if the clock reads 10 at start and 7 at stop, the recorded
duration is -3, which is negative — the claim fails for non-monotone clock
readings. -/
theorem wall_clock_negative_duration :
    (stopTimer 7 (startTimer 10
        { start_time := none, task_duration := none })).task_duration = some (-3) ∧
    (-3 : Int) < 0 := by
  decide

/-- C8 (amended): the recorded duration is the stop reading minus the start
reading, and it is nonnegative whenever the clock is monotone across the
pair (the stop reading is at least the start reading); the source's wall
clock does not guarantee this. -/
theorem duration_nonneg_of_monotone (t now : Int) (s : TimerState) (h : t ≤ now) :
    (stopTimer now (startTimer t s)).task_duration = some (now - t) ∧ 0 ≤ now - t := by
  obtain ⟨st, td⟩ := s
  exact ⟨rfl, by omega⟩

/-- C8 witness: a monotone pair of clock readings. -/
theorem duration_nonneg_of_monotone_witness :
    (stopTimer 7 (startTimer 4
        { start_time := none, task_duration := none })).task_duration = some (7 - 4) ∧
    0 ≤ (7 : Int) - 4 :=
  duration_nonneg_of_monotone 4 7 { start_time := none, task_duration := none }
    (by decide)

/-- C9: when the recorded `task_duration` is exactly 0 (and likewise when
none was recorded), the persisted task record's `duration_seconds` field is
the empty-string placeholder, not the number 0, because line 126 tests the
duration's truthiness (`duration_val if duration_val else ""`). -/
theorem zero_duration_persists_placeholder (ts tn succ notes : String)
    (st : Option Int) (file : FileState) :
    lookupValue (taskRecord ts tn succ notes { start_time := st, task_duration := some 0 })
      "duration_seconds" = .VStr "" ∧
    lookupValue (taskRecord ts tn succ notes { start_time := st, task_duration := none })
      "duration_seconds" = .VStr "" ∧
    lookupValue (taskRecord ts tn succ notes { start_time := st, task_duration := some 0 })
      "duration_seconds" ≠ .VInt 0 ∧
    (saveTaskResults ts tn succ notes { start_time := st, task_duration := some 0 } file).2
      = save_to_csv (taskRecord ts tn succ notes
          { start_time := st, task_duration := some 0 }) file := by
  refine ⟨?_, ?_, ?_, rfl⟩ <;> simp [lookupValue, taskRecord, durationCell, List.find?]

/-- C4 counterexample: with a recorded duration of exactly 0 (present, not
absent), the saved record's `duration_seconds` is the empty placeholder
rather than the recorded value — "returns `last_duration` whenever present"
fails. -/
theorem zero_duration_not_returned :
    lookupValue (taskRecord "t" "Task 1: Example Task" "Yes" "n"
        { start_time := none, task_duration := some 0 }) "duration_seconds" = .VStr "" ∧
    Value.VStr "" ≠ Value.VInt 0 := by
  decide

/-- C4 (amended): saving task results merges the recorded duration into the
record whenever it is present and nonzero, merges the empty placeholder
when it is absent or zero, and in every case clears both `start_time` and
`task_duration`, leaving the timer state empty. -/
theorem save_task_consumes_duration (ts tn succ notes : String) (s : TimerState)
    (file : FileState) :
    (saveTaskResults ts tn succ notes s file).1
      = { start_time := none, task_duration := none } ∧
    (∀ x, s.task_duration = some x → x ≠ 0 →
      lookupValue (taskRecord ts tn succ notes s) "duration_seconds" = .VInt x) ∧
    (s.task_duration = none ∨ s.task_duration = some 0 →
      lookupValue (taskRecord ts tn succ notes s) "duration_seconds" = .VStr "") ∧
    (saveTaskResults ts tn succ notes s file).2
      = save_to_csv (taskRecord ts tn succ notes s) file := by
  refine ⟨rfl, ?_, ?_, rfl⟩
  · intro x hx hx0
    simp [lookupValue, taskRecord, durationCell, hx, hx0, List.find?]
  · rintro (h | h) <;> simp [lookupValue, taskRecord, durationCell, h, List.find?]

/-- C4 witness: a present, nonzero duration is merged into the record. -/
theorem save_task_consumes_duration_witness :
    lookupValue (taskRecord "t" "Task 1: Example Task" "Yes" "n"
        { start_time := none, task_duration := some 3 }) "duration_seconds" = .VInt 3 :=
  (save_task_consumes_duration "t" "Task 1: Example Task" "Yes" "n"
      { start_time := none, task_duration := some 3 } none).2.1 3 rfl (by decide)

/-- C6: submitting consent without affirmation leaves the dataset untouched
and shows the warning; submitting with affirmation appends exactly one
record, namely the consent record carrying the timestamp and
`consent_given = true`. -/
theorem consent_submission (ts : String) (file : FileState) (hwf : WFFile file) :
    submitConsent false ts file = (file, true) ∧
    (load_from_csv (submitConsent true ts file).1).length
      = (load_from_csv file).length + 1 ∧
    (submitConsent true ts file).1 = save_to_csv (consentRecord ts true) file ∧
    lookupValue (consentRecord ts true) "consent_given" = .VBool true ∧
    lookupValue (consentRecord ts true) "timestamp" = .VStr ts := by
  refine ⟨rfl, ?_, rfl, ?_, ?_⟩
  · exact load_length_save (consentRecord ts true) file hwf
  · simp [lookupValue, consentRecord, List.find?]
  · simp [lookupValue, consentRecord, List.find?]

/-- C6 witness: both branches at a concrete timestamp on a fresh store. -/
theorem consent_submission_witness :
    submitConsent false "2024-01-01 10:00:00" none = (none, true) ∧
    (load_from_csv (submitConsent true "2024-01-01 10:00:00" none).1).length
      = (load_from_csv (none : FileState)).length + 1 :=
  ⟨(consent_submission "2024-01-01 10:00:00" none (Or.inl rfl)).1,
   (consent_submission "2024-01-01 10:00:00" none (Or.inl rfl)).2.1⟩

/-- Sum of a list bounded below by length times a pointwise lower bound. -/
lemma length_mul_le_sum (a : ℚ) :
    ∀ l : List ℚ, (∀ x ∈ l, a ≤ x) → (l.length : ℚ) * a ≤ l.sum := by
  intro l
  induction l with
  | nil => intro _; simp
  | cons x xs ih =>
      intro h
      have hx := h x (by simp)
      have hxs := ih fun y hy => h y (by simp [hy])
      simp only [List.sum_cons, List.length_cons]
      push_cast
      linarith

/-- Sum of a list bounded above by length times a pointwise upper bound. -/
lemma sum_le_length_mul (b : ℚ) :
    ∀ l : List ℚ, (∀ x ∈ l, x ≤ b) → l.sum ≤ (l.length : ℚ) * b := by
  intro l
  induction l with
  | nil => intro _; simp
  | cons x xs ih =>
      intro h
      have hx := h x (by simp)
      have hxs := ih fun y hy => h y (by simp [hy])
      simp only [List.sum_cons, List.length_cons]
      push_cast
      linarith

/-- The mean of a nonempty list lies between any pointwise bounds. -/
lemma listMean_bounds (l : List ℚ) (a b : ℚ) (hne : l ≠ [])
    (h : ∀ x ∈ l, a ≤ x ∧ x ≤ b) : a ≤ listMean l ∧ listMean l ≤ b := by
  have hlen : 0 < (l.length : ℚ) := by
    have := List.length_pos.mpr hne
    exact_mod_cast this
  have hlo := length_mul_le_sum a l fun x hx => (h x hx).1
  have hhi := sum_le_length_mul b l fun x hx => (h x hx).2
  unfold listMean
  constructor
  · rw [le_div_iff₀ hlen]
    linarith
  · rw [div_le_iff₀ hlen]
    linarith

/-- `reportExitAverages` on a file whose loaded contents are known and
nonempty: the aggregate section is present and holds the two column
means. -/
lemma reportExitAverages_eq (file : FileState) (df : List Record)
    (h : load_from_csv file = df) (hne : df ≠ []) :
    reportExitAverages file = some
      (listMean (df.map fun r => valueToRat (lookupValue r "satisfaction")),
       listMean (df.map fun r => valueToRat (lookupValue r "difficulty"))) := by
  obtain ⟨d, ds, rfl⟩ := List.exists_cons_of_ne_nil hne
  simp [reportExitAverages, h]

/-- A fold of exit submissions is a fold of plain appends of the exit
records. -/
lemma exitFile_eq_appendAll (entries : List ExitEntry) :
    exitFile entries
      = appendAll (entries.map fun e => exitRecord e.1 e.2.1 e.2.2.1 e.2.2.2) none := by
  rw [appendAll, List.foldl_map]
  rfl

/-- Slider-range integers print as plain digit cells the integer converter
accepts and maps back to the same integer. -/
lemma small_int_cell (n : Int) (h1 : 1 ≤ n) (h5 : n ≤ 5) :
    isIntCell (toString n) = true ∧ intCellVal (toString n) = n := by
  have h : n = 1 ∨ n = 2 ∨ n = 3 ∨ n = 4 ∨ n = 5 := by omega
  rcases h with h | h | h | h | h <;> subst h <;> exact ⟨by decide, by decide⟩

/-- A column of printed slider-range integers is inferred as the integer
column holding those integers. -/
lemma inferColumn_small_ints (l : List Int) (hb : ∀ n ∈ l, 1 ≤ n ∧ n ≤ 5) :
    inferColumn (l.map toString) = l.map (fun n => Value.VInt n) := by
  have hall : (l.map toString).all isIntCell = true := by
    rw [List.all_eq_true]
    intro x hx
    obtain ⟨n, hn, rfl⟩ := List.mem_map.mp hx
    exact (small_int_cell n (hb n hn).1 (hb n hn).2).1
  unfold inferColumn
  rw [hall, if_pos rfl, List.map_map]
  apply List.map_congr_left
  intro n hn
  show Value.VInt (intCellVal (toString n)) = Value.VInt n
  rw [(small_int_cell n (hb n hn).1 (hb n hn).2).2]

/-- Column access on an exit-shaped record. -/
lemma lookup_quad (v0 v1 v2 v3 : Value) :
    lookupValue [("timestamp", v0), ("satisfaction", v1), ("difficulty", v2),
      ("open_feedback", v3)] "satisfaction" = v1 ∧
    lookupValue [("timestamp", v0), ("satisfaction", v1), ("difficulty", v2),
      ("open_feedback", v3)] "difficulty" = v2 := by
  constructor <;> simp [lookupValue, List.find?]

/-- C5: the report's exit aggregates are the arithmetic means of the
`satisfaction` and `difficulty` columns: over the two submissions
`(3, 2)` and `(5, 4)` they are `4` and `3`; over an absent (zero-record)
exit dataset the aggregate section is omitted (`none`), not zero and not
an error. -/
theorem exit_averages_example :
    reportExitAverages (submitExit "t2" 5 4 "fine" (submitExit "t1" 3 2 "ok" none))
      = some (4, 3) ∧
    reportExitAverages none = none := by
  constructor
  · have hload : load_from_csv (submitExit "t2" 5 4 "fine" (submitExit "t1" 3 2 "ok" none))
        = [[("timestamp", Value.VStr "t1"), ("satisfaction", Value.VInt 3),
            ("difficulty", Value.VInt 2), ("open_feedback", Value.VStr "ok")],
           [("timestamp", Value.VStr "t2"), ("satisfaction", Value.VInt 5),
            ("difficulty", Value.VInt 4), ("open_feedback", Value.VStr "fine")]] := by
      decide
    rw [reportExitAverages_eq _ _ hload (by decide)]
    have s1 : lookupValue [("timestamp", Value.VStr "t1"), ("satisfaction", Value.VInt 3),
        ("difficulty", Value.VInt 2), ("open_feedback", Value.VStr "ok")] "satisfaction"
        = Value.VInt 3 := by decide
    have s2 : lookupValue [("timestamp", Value.VStr "t2"), ("satisfaction", Value.VInt 5),
        ("difficulty", Value.VInt 4), ("open_feedback", Value.VStr "fine")] "satisfaction"
        = Value.VInt 5 := by decide
    have d1 : lookupValue [("timestamp", Value.VStr "t1"), ("satisfaction", Value.VInt 3),
        ("difficulty", Value.VInt 2), ("open_feedback", Value.VStr "ok")] "difficulty"
        = Value.VInt 2 := by decide
    have d2 : lookupValue [("timestamp", Value.VStr "t2"), ("satisfaction", Value.VInt 5),
        ("difficulty", Value.VInt 4), ("open_feedback", Value.VStr "fine")] "difficulty"
        = Value.VInt 4 := by decide
    simp only [List.map_cons, List.map_nil, s1, s2, d1, d2, valueToRat]
    norm_num [listMean]
  · rfl

/-- C10: every exit submission carries slider values in 1-5, and after any
nonempty sequence of such submissions to a fresh exit dataset both computed
means lie in the closed interval `[1, 5]`. -/
theorem exit_means_bounded (entries : List ExitEntry)
    (hne : entries ≠ [])
    (hb : ∀ e ∈ entries, 1 ≤ e.2.1 ∧ e.2.1 ≤ 5 ∧ 1 ≤ e.2.2.1 ∧ e.2.2.1 ≤ 5) :
    ∃ mS mD, reportExitAverages (exitFile entries) = some (mS, mD) ∧
      1 ≤ mS ∧ mS ≤ 5 ∧ 1 ≤ mD ∧ mD ≤ 5 := by
  have hne2 : (entries.map fun e => exitRecord e.1 e.2.1 e.2.2.1 e.2.2.2) ≠ [] := by
    simpa [List.map_eq_nil_iff] using hne
  have hH2 : ∀ r ∈ entries.map fun e => exitRecord e.1 e.2.1 e.2.2.1 e.2.2.2,
      headerOf r = ["timestamp", "satisfaction", "difficulty", "open_feedback"] := by
    intro r hr
    obtain ⟨e, he, rfl⟩ := List.mem_map.mp hr
    rfl
  have hrows : (entries.map fun e => exitRecord e.1 e.2.1 e.2.2.1 e.2.2.2).map rowOf
      = entries.map fun e => [e.1, toString e.2.1, toString e.2.2.1, e.2.2.2] := by
    rw [List.map_map]
    rfl
  have hdf : load_from_csv (exitFile entries)
      = (List.range entries.length).map (fun i =>
          [("timestamp",
             (inferColumn (entries.map fun e => e.1)).getD i Value.VNaN),
           ("satisfaction",
             (inferColumn (entries.map fun e => toString e.2.1)).getD i Value.VNaN),
           ("difficulty",
             (inferColumn (entries.map fun e => toString e.2.2.1)).getD i Value.VNaN),
           ("open_feedback",
             (inferColumn (entries.map fun e => e.2.2.2)).getD i Value.VNaN)]) := by
    rw [exitFile_eq_appendAll, load_appendAll _ _ hne2 hH2, hrows]
    unfold decodeRows columnsOf
    simp only [List.map_map, List.length_map]
    rfl
  have hcol1 : inferColumn (entries.map fun e => toString e.2.1)
      = entries.map fun e => Value.VInt e.2.1 := by
    have h : entries.map (fun e => toString e.2.1)
        = (entries.map fun e => e.2.1).map toString := by
      rw [List.map_map]
      rfl
    rw [h, inferColumn_small_ints (entries.map fun e => e.2.1) (by
      intro n hn
      obtain ⟨e, he, rfl⟩ := List.mem_map.mp hn
      exact ⟨(hb e he).1, (hb e he).2.1⟩), List.map_map]
    rfl
  have hcol2 : inferColumn (entries.map fun e => toString e.2.2.1)
      = entries.map fun e => Value.VInt e.2.2.1 := by
    have h : entries.map (fun e => toString e.2.2.1)
        = (entries.map fun e => e.2.2.1).map toString := by
      rw [List.map_map]
      rfl
    rw [h, inferColumn_small_ints (entries.map fun e => e.2.2.1) (by
      intro n hn
      obtain ⟨e, he, rfl⟩ := List.mem_map.mp hn
      exact ⟨(hb e he).2.2.1, (hb e he).2.2.2⟩), List.map_map]
    rfl
  have hsat : (load_from_csv (exitFile entries)).map
      (fun r => valueToRat (lookupValue r "satisfaction"))
      = entries.map fun e => (e.2.1 : ℚ) := by
    rw [hdf, List.map_map]
    apply List.ext_getElem
    · simp
    · intro i h1 h2
      have hi : i < entries.length := by simpa using h2
      simp only [List.getElem_map, List.getElem_range, Function.comp_apply]
      rw [(lookup_quad _ _ _ _).1, hcol1,
        List.getD_eq_getElem _ _ (by simpa using hi), List.getElem_map]
      rfl
  have hdiff : (load_from_csv (exitFile entries)).map
      (fun r => valueToRat (lookupValue r "difficulty"))
      = entries.map fun e => (e.2.2.1 : ℚ) := by
    rw [hdf, List.map_map]
    apply List.ext_getElem
    · simp
    · intro i h1 h2
      have hi : i < entries.length := by simpa using h2
      simp only [List.getElem_map, List.getElem_range, Function.comp_apply]
      rw [(lookup_quad _ _ _ _).2, hcol2,
        List.getD_eq_getElem _ _ (by simpa using hi), List.getElem_map]
      rfl
  have hdfne : load_from_csv (exitFile entries) ≠ [] := by
    rw [hdf]
    simpa [List.map_eq_nil_iff, List.range_eq_nil, List.length_eq_zero] using hne
  have hbS := listMean_bounds (entries.map fun e => (e.2.1 : ℚ)) 1 5
    (by simpa [List.map_eq_nil_iff] using hne)
    (by
      intro x hx
      obtain ⟨e, he, rfl⟩ := List.mem_map.mp hx
      constructor
      · exact_mod_cast (hb e he).1
      · exact_mod_cast (hb e he).2.1)
  have hbD := listMean_bounds (entries.map fun e => (e.2.2.1 : ℚ)) 1 5
    (by simpa [List.map_eq_nil_iff] using hne)
    (by
      intro x hx
      obtain ⟨e, he, rfl⟩ := List.mem_map.mp hx
      constructor
      · exact_mod_cast (hb e he).2.2.1
      · exact_mod_cast (hb e he).2.2.2)
  have hrep : reportExitAverages (exitFile entries)
      = some (listMean (entries.map fun e => (e.2.1 : ℚ)),
              listMean (entries.map fun e => (e.2.2.1 : ℚ))) := by
    rw [reportExitAverages_eq (exitFile entries) _ rfl hdfne, hsat, hdiff]
  exact ⟨_, _, hrep, hbS.1, hbS.2, hbD.1, hbD.2⟩

/-- C10 witness: one concrete exit submission with in-range sliders. -/
theorem exit_means_bounded_witness :
    ∃ mS mD, reportExitAverages (exitFile [("t", 3, 2, "")]) = some (mS, mD) ∧
      1 ≤ mS ∧ mS ≤ 5 ∧ 1 ≤ mD ∧ mD ≤ 5 :=
  exit_means_bounded [("t", 3, 2, "")] (by decide) (by decide)

end UsabilityTool
